import Mathlib

/-!
Verification of the repo-chat conversation pipeline.

This development shallowly embeds the message data model, the message
sanitizer, the tool-invocation resolver, the bounded conversation loop,
the repository tools and the HTTP validation route of the repo-chat
worker, and proves or refutes the specified properties about them.
-/

namespace RepoChat

/-- State of a tool-invocation Part, as in the UI message data model:
input-streaming, input-available, output-available (with output payload),
or output-error (with error text). -/
inductive ToolState where
  | inputStreaming
  | inputAvailable
  | outputAvailable (output : String)
  | outputError (errorText : String)
deriving DecidableEq, Repr

/-- A tool-invocation Part: tool call id, tool name, and lifecycle state. -/
structure ToolPart where
  toolCallId : String
  toolName : String
  state : ToolState
deriving DecidableEq, Repr

/-- A message Part: either a text fragment or a tool invocation. -/
inductive Part where
  | text (s : String)
  | toolInvocation (t : ToolPart)
deriving DecidableEq, Repr

/-- One message of the conversation history. -/
structure Message where
  id : String
  role : String
  parts : List Part
deriving DecidableEq, Repr

/-- Decides whether a Part is a tool invocation whose state is
input-streaming. -/
def isStreamingToolPart : Part → Bool
  | .toolInvocation t =>
    match t.state with
    | .inputStreaming => true
    | _ => false
  | .text _ => false

/-- Drops the longest suffix of the part list consisting of tool
invocations in state input-streaming. -/
def dropTrailingStreaming (ps : List Part) : List Part :=
  (ps.reverse.dropWhile isStreamingToolPart).reverse

/-- Decides whether the part list ends with a tool invocation in state
input-streaming. -/
def hasTrailingStreaming (ps : List Part) : Bool :=
  match ps.reverse with
  | [] => false
  | p :: _ => isStreamingToolPart p

/-- Modelled from the spec: the function cleanupMessages imported from
the worker utils module is not part of the provided sources; section 4.1
of the spec describes it as walking from the most recent message, dropping
any trailing tool-invocation Part in state input-streaming from the most
recent message only, passing earlier messages through unchanged, and
dropping the last message entirely when it is left with no parts. -/
def cleanupMessages (h : List Message) : List Message :=
  match h.reverse with
  | [] => []
  | last :: restRev =>
    let kept := dropTrailingStreaming last.parts
    if kept.isEmpty then restRev.reverse
    else restRev.reverse ++ [{ last with parts := kept }]

/-- Decides whether the first char list is a prefix of the second. -/
def isPrefixL : List Char → List Char → Bool
  | [], _ => true
  | _ :: _, [] => false
  | a :: s, b :: t => a == b && isPrefixL s t

/-- Decides whether the first char list occurs as a contiguous sublist of
the second. -/
def occursList (s : List Char) : List Char → Bool
  | [] => s.isEmpty
  | h :: t => isPrefixL s (h :: t) || occursList s t

/-- Decides whether the needle string occurs as a substring of the hay
string. -/
def strOccurs (needle hay : String) : Bool :=
  occursList needle.data hay.data

/-- Embeds the JavaScript method String.prototype.trim: removes
whitespace from both ends of the string. -/
def jsTrim (s : String) : String :=
  ⟨((s.data.dropWhile Char.isWhitespace).reverse.dropWhile
      Char.isWhitespace).reverse⟩

/-- Embeds the JavaScript call name.split with separator colon-colon,
scanning left to right and cutting at each occurrence of the separator. -/
def splitSS : List Char → List Char → List (List Char)
  | acc, [] => [acc.reverse]
  | acc, ':' :: ':' :: rest => acc.reverse :: splitSS [] rest
  | acc, c :: rest => splitSS (c :: acc) rest

/-- A pair of repository coordinates: owner and repo name.  Used both for
the conversation binding and for model-supplied tool-call input. -/
structure RepoInput where
  owner : String
  repo : String
deriving DecidableEq, Repr

/-- Embeds the binding extraction in Chat.onChatMessage: the agent name
has the format owner::repo and is split on the double colon, owner and
repo being the first two segments.  Percent-decoding of the name is
omitted; the name is taken as already decoded. -/
def conversationRepo (name : String) : RepoInput :=
  let segs := splitSS [] name.data
  { owner := ⟨segs.headD []⟩, repo := ⟨(segs.drop 1).headD []⟩ }

/-- Embeds the final line of the system prompt in Chat.onChatMessage,
which instructs the model to pass the bound owner and repo to every tool
call. -/
def bindingInstruction (o r : String) : String :=
  "Remember: All tool calls must use owner=\"" ++ o ++ "\" and repo=\"" ++
    r ++ "\" as parameters."

/-- Embeds the body of the system prompt built in Chat.onChatMessage from
the bound owner and repo (everything before the final reminder line). -/
def systemPromptBody (o r : String) : String :=
  "You are a technical assistant specialized in analyzing the GitHub repository: " ++
    o ++ "/" ++ r ++
    "\n\n        IMPORTANT: You can ONLY answer questions about the repository " ++
    o ++ "/" ++ r ++
    ". If a user asks about a different repository, politely remind them that you\x27re focused on " ++
    o ++ "/" ++ r ++
    ".\n\n        When analyzing this repository:\n        1. Start by getting repository info to understand the project context\n        2. Explore the codebase structure before diving into specific files\n        3. Search for relevant code patterns when looking for specific functionality\n        4. Check the README for project overview and documentation\n        5. Use multiple tools when needed for comprehensive answers\n\n        Guidelines for responses:\n        - Always use tools to gather information before responding\n        - Include code excerpts with file paths when useful\n        - Keep answers concise and focused on the question\n        - If information isn\x27t in the repository, say so clearly\n        - Never guess or fabricate code, functions, or files\n        - Explain how code fits in the overall project structure\n\n        "

/-- Embeds the system prompt of Chat.onChatMessage: the body followed by
the reminder line about tool-call parameters. -/
def systemPrompt (o r : String) : String :=
  systemPromptBody o r ++ bindingInstruction o r

/-- A request issued to the GitHub API: endpoint name plus the owner and
repo it is addressed to. -/
structure ApiRequest where
  endpoint : String
  owner : String
  repo : String
deriving DecidableEq, Repr

/-- Embeds the API requests issued by the getRepositoryInfo tool executor
in tools.ts: repos.get and repos.listLanguages, both addressed with the
owner and repo taken from the tool-call input. -/
def getRepositoryInfoRequests (i : RepoInput) : List ApiRequest :=
  [{ endpoint := "repos.get", owner := i.owner, repo := i.repo },
   { endpoint := "repos.listLanguages", owner := i.owner, repo := i.repo }]

/-- Input of the getRecentCommits tool, per its zod schema in tools.ts:
owner, repo, optional sha and path, and a per_page number (default 10). -/
structure GetRecentCommitsInput where
  owner : String
  repo : String
  sha : Option String
  path : Option String
  per_page : Int
deriving DecidableEq, Repr

/-- A repos.listCommits request as issued to the GitHub client. -/
structure ListCommitsRequest where
  owner : String
  repo : String
  sha : Option String
  path : Option String
  per_page : Int
deriving DecidableEq, Repr

/-- Embeds the JavaScript pattern value-or-undefined: an empty string is
falsy, so an empty-string value is coerced to undefined. -/
def orUndefined (s : Option String) : Option String :=
  match s with
  | some v => if v.data.isEmpty then none else some v
  | none => none

/-- Embeds the repos.listCommits request built by the getRecentCommits
tool executor in tools.ts: owner, repo, sha-or-undefined,
path-or-undefined, and per_page clamped with Math.min to 100. -/
def getRecentCommitsRequest (i : GetRecentCommitsInput) : ListCommitsRequest :=
  { owner := i.owner, repo := i.repo, sha := orUndefined i.sha,
    path := orUndefined i.path, per_page := min i.per_page 100 }

/-- An HTTP response of the repository-validation route: status code,
the valid flag, and the optional error string of the JSON body. -/
structure ValidateRepoResponse where
  status : Nat
  valid : Bool
  error : Option String
deriving DecidableEq, Repr

/-- Decides whether the upstream repository lookup succeeded. -/
def lookupSucceeded : Except String Unit → Bool
  | .ok _ => true
  | .error _ => false

/-- Embeds the validate-repo route of the worker: a successful
repos.get lookup yields a 200 response with valid true; any thrown
error is caught by a catch-all and yields a 500 response with valid
false and the fixed error string, the error value itself being ignored. -/
def validateRepoRoute (lookup : Except String Unit) : ValidateRepoResponse :=
  match lookup with
  | .ok _ => { status := 200, valid := true, error := none }
  | .error _ =>
    { status := 500, valid := false, error := some "Failed to validate repository" }

/-- Outcome of one submission in the chat view: the resulting message
history and the text sent to the agent, if any (none means no model
call is triggered). -/
structure SubmitOutcome where
  history : List Message
  sent : Option String
deriving DecidableEq, Repr

/-- Embeds handleAgentSubmit in Chat.tsx: a whitespace-only input is
ignored; an input whose trimmed form is the literal clear command clears
the history (clearHistory of the agents library discards the entire
history, as the spec states) and sends nothing; any other input is sent
to the agent as a user message, untrimmed. -/
def handleAgentSubmit (h : List Message) (agentInput : String) : SubmitOutcome :=
  if jsTrim agentInput = "" then { history := h, sent := none }
  else if jsTrim agentInput = "clear" then { history := [], sent := none }
  else { history := h, sent := some agentInput }

/-- One model response of a generation round: its text and whether it
requests further tool calls. -/
structure ModelResponse where
  text : String
  requestsTools : Bool
deriving DecidableEq, Repr

/-- The round budget of the conversation loop, from the stopWhen
argument stepCountIs 10 passed to streamText in Chat.onChatMessage. -/
def roundBudget : Nat := 10

/-- Modelled from the spec: the generation loop itself is implemented by
the streamText function of the ai library, not by code in the sources;
section 4.3 of the spec describes it as repeating model-generation
rounds while the model requests further tool calls, stopping when the
round budget is exhausted.  The argument gives the model response of
each round; the result is the list of responses of the rounds actually
performed. -/
def runTurn (respond : Nat → ModelResponse) : Nat → List ModelResponse
  | 0 => []
  | b + 1 =>
    if (respond 0).requestsTools then
      respond 0 :: runTurn (fun n => respond (n + 1)) b
    else [respond 0]

/-- An approval decision delivered for a tool call awaiting
confirmation. -/
inductive Decision where
  | yes
  | no
deriving DecidableEq, Repr

/-- Modelled from the spec: the APPROVAL sentinel values live in the
shared module, which is not part of the provided sources; the decision is
recorded as the output of the invocation (NO yields the sentinel output
indicating the user declined). -/
def decisionOutput : Decision → String
  | .yes => "YES"
  | .no => "NO"

/-- Decides whether a Part is a tool invocation carrying the given tool
call id. -/
def partHasCallId (id : String) (p : Part) : Bool :=
  match p with
  | .toolInvocation t => t.toolCallId == id
  | .text _ => false

/-- Modelled from the spec: the addToolResult bridge is implemented by
the agents library, not by code in the sources; sections 4.2 and 6 of
the spec describe it as applying a decision keyed by toolCallId to the
matching invocation once it is in state input-available, recording the
decision as the invocation output, and ignoring duplicate or unknown
toolCallIds.  This applies one decision to one Part. -/
def applyDecisionPart (id : String) (d : Decision) (p : Part) : Part :=
  match p with
  | .toolInvocation t =>
    if t.toolCallId = id ∧ t.state = ToolState.inputAvailable then
      .toolInvocation { t with state := .outputAvailable (decisionOutput d) }
    else p
  | .text s => .text s

/-- Modelled from the spec: applies one approval decision to every Part
of one message (see applyDecisionPart). -/
def applyDecisionMsg (id : String) (d : Decision) (m : Message) : Message :=
  { m with parts := m.parts.map (applyDecisionPart id d) }

/-- Modelled from the spec: applies one approval decision across the
whole message history (see applyDecisionPart). -/
def applyDecision (id : String) (d : Decision) (h : List Message) : List Message :=
  h.map (applyDecisionMsg id d)

/-- Embeds the catch branch of the getRepositoryInfo tool executor in
tools.ts: an error thrown by the underlying GitHub calls is rethrown
with the fixed failure prefix and the original message appended. -/
def getRepositoryInfoExecute (api : Except String String) : Except String String :=
  match api with
  | .ok data => .ok data
  | .error e => .error ("Failed to get repository info: " ++ e)

/-- Modelled from the spec: the writing of tool-executor results back
into Part state is done by the ai library, not by code in the sources;
section 4.2 of the spec describes it as setting state output-available
with the result on success and output-error with the error text on a
thrown error, for an invocation in state input-available. -/
def resolveToolPart (execResult : Except String String) (t : ToolPart) : ToolPart :=
  match t.state with
  | .inputAvailable =>
    match execResult with
    | .ok out => { t with state := .outputAvailable out }
    | .error e => { t with state := .outputError e }
  | _ => t

/-- Outcome of one logical turn: completed with a final history, or
aborted by a model-generation error. -/
inductive TurnOutcome where
  | completed (history : List Message)
  | aborted (modelError : String)
deriving DecidableEq, Repr

/-- Decides whether a turn outcome is an abort. -/
def TurnOutcome.isAborted : TurnOutcome → Bool
  | .completed _ => false
  | .aborted _ => true

/-- Modelled from the spec: section 7 of the spec describes the
propagation policy implemented by the ai library: a model-generation
failure aborts the turn, while tool-executor failures are absorbed into
Part states by the resolver and never abort the turn.  The first
argument is the model generation result; the second resolves each tool
invocation of the generated message. -/
def turnStep (modelResult : Except String Message)
    (exec : ToolPart → Except String String) : TurnOutcome :=
  match modelResult with
  | .error e => .aborted e
  | .ok m =>
    .completed
      [{ m with
          parts := m.parts.map (fun p =>
            match p with
            | .toolInvocation t => .toolInvocation (resolveToolPart (exec t) t)
            | .text s => .text s) }]

/-- A tool-invocation Part stuck in state input-streaming, for concrete
evaluation. -/
def streamingPart : Part :=
  .toolInvocation
    { toolCallId := "c1", toolName := "getFileContent", state := .inputStreaming }

/-- A message whose streaming invocation is followed by a text part, so
the invocation is not trailing. -/
def mC3 : Message :=
  { id := "m1", role := "assistant", parts := [streamingPart, .text "hi"] }

/-- A message consisting of a single streaming invocation. -/
def mC7a : Message :=
  { id := "m2", role := "assistant", parts := [streamingPart] }

/-- A second message consisting of a single streaming invocation. -/
def mC7b : Message :=
  { id := "m3", role := "assistant",
    parts := [.toolInvocation
      { toolCallId := "c2", toolName := "searchCode", state := .inputStreaming }] }

/-- An ordinary user text message. -/
def mPlain : Message :=
  { id := "m0", role := "user", parts := [Part.text "hello"] }

/-- A tool invocation awaiting resolution in state input-available. -/
def tC6 : ToolPart :=
  { toolCallId := "call1", toolName := "getReadme", state := .inputAvailable }

/-- A one-message history holding the invocation tC6. -/
def hC6 : List Message :=
  [{ id := "a1", role := "assistant", parts := [Part.toolInvocation tC6] }]

/-- Decides whether the last message of the sanitized history still
contains a tool invocation in state input-streaming. -/
def lastMessageHasStreaming (h : List Message) : Bool :=
  match (cleanupMessages h).getLast? with
  | none => false
  | some m => m.parts.any isStreamingToolPart

theorem isPrefixL_self_append : ∀ (s t : List Char), isPrefixL s (s ++ t) = true := by
  intro s t
  induction s with
  | nil => rfl
  | cons a s ih => simp [isPrefixL, ih]

theorem isPrefixL_self (s : List Char) : isPrefixL s s = true := by
  have h := isPrefixL_self_append s []
  rwa [List.append_nil] at h

theorem occursList_self_append : ∀ (a s : List Char), occursList s (a ++ s) = true := by
  intro a s
  induction a with
  | nil =>
    cases s with
    | nil => rfl
    | cons h t =>
      show occursList (h :: t) (h :: t) = true
      unfold occursList
      rw [isPrefixL_self, Bool.true_or]
  | cons x a ih =>
    show occursList s (x :: (a ++ s)) = true
    unfold occursList
    rw [ih, Bool.or_true]

theorem dropWhile_head_not {α : Type} (f : α → Bool) :
    ∀ (l : List α) (x : α) (t : List α), l.dropWhile f = x :: t → f x = false := by
  intro l
  induction l with
  | nil => intro x t hx; cases hx
  | cons a rest ih =>
    intro x t hx
    rw [List.dropWhile_cons] at hx
    by_cases ha : f a = true
    · rw [if_pos ha] at hx; exact ih x t hx
    · rw [if_neg ha] at hx
      cases hx
      exact Bool.not_eq_true _ |>.mp ha

theorem hasTrailingStreaming_dropTrailing (ps : List Part) :
    hasTrailingStreaming (dropTrailingStreaming ps) = false := by
  unfold hasTrailingStreaming dropTrailingStreaming
  rw [List.reverse_reverse]
  cases hcase : ps.reverse.dropWhile isStreamingToolPart with
  | nil => rfl
  | cons x t =>
    show isStreamingToolPart x = false
    exact dropWhile_head_not _ _ _ _ hcase

theorem dropTrailing_of_noTrailing (ps : List Part)
    (hp : hasTrailingStreaming ps = false) : dropTrailingStreaming ps = ps := by
  unfold dropTrailingStreaming
  unfold hasTrailingStreaming at hp
  cases hrev : ps.reverse with
  | nil =>
    have hps : ps = [] := by rw [← List.reverse_reverse ps, hrev]; rfl
    subst hps
    rfl
  | cons p t =>
    rw [hrev] at hp
    have hp2 : isStreamingToolPart p = false := hp
    rw [List.dropWhile_cons, if_neg (by simp [hp2])]
    rw [← List.reverse_reverse ps, hrev]

theorem cleanup_append (h : List Message) (m : Message) :
    cleanupMessages (h ++ [m]) =
      h ++ (if (dropTrailingStreaming m.parts).isEmpty then []
            else [{ m with parts := dropTrailingStreaming m.parts }]) := by
  unfold cleanupMessages
  rw [show (h ++ [m]).reverse = m :: h.reverse by simp]
  simp only [List.reverse_reverse]
  split
  · simp_all
  · simp_all

theorem runTurn_length_le : ∀ (b : Nat) (f : Nat → ModelResponse),
    (runTurn f b).length ≤ b := by
  intro b
  induction b with
  | zero => intro f; exact Nat.le_refl 0
  | succ n ih =>
    intro f
    unfold runTurn
    split
    · simpa using Nat.succ_le_succ (ih _)
    · simp

theorem runTurn_length_all : ∀ (b : Nat) (f : Nat → ModelResponse),
    (∀ n, (f n).requestsTools = true) → (runTurn f b).length = b := by
  intro b
  induction b with
  | zero => intro f _; rfl
  | succ n ih =>
    intro f hf
    unfold runTurn
    rw [if_pos (hf 0)]
    simpa using ih _ (fun k => hf (k + 1))

theorem applyDecisionPart_idem (id : String) (d : Decision) (p : Part) :
    applyDecisionPart id d (applyDecisionPart id d p) = applyDecisionPart id d p := by
  cases p with
  | text s => rfl
  | toolInvocation t =>
    by_cases hc : t.toolCallId = id ∧ t.state = ToolState.inputAvailable
    · have h1 : applyDecisionPart id d (.toolInvocation t) =
          .toolInvocation { t with state := .outputAvailable (decisionOutput d) } := by
        simp only [applyDecisionPart]
        rw [if_pos hc]
      rw [h1]
      simp only [applyDecisionPart]
      rw [if_neg (by simp)]
    · have h1 : applyDecisionPart id d (.toolInvocation t) = .toolInvocation t := by
        simp only [applyDecisionPart]
        rw [if_neg hc]
      rw [h1]
      exact h1

theorem applyDecisionPart_unmatched (id : String) (d : Decision) (p : Part)
    (hm : partHasCallId id p = false) : applyDecisionPart id d p = p := by
  cases p with
  | text s => rfl
  | toolInvocation t =>
    have hne : t.toolCallId ≠ id := by
      intro heq
      have hm2 : (t.toolCallId == id) = false := hm
      rw [heq] at hm2
      simp at hm2
    simp only [applyDecisionPart]
    rw [if_neg (fun h2 => hne h2.1)]

theorem applyDecisionMsg_idem (id : String) (d : Decision) (m : Message) :
    applyDecisionMsg id d (applyDecisionMsg id d m) = applyDecisionMsg id d m := by
  show Message.mk m.id m.role
      ((m.parts.map (applyDecisionPart id d)).map (applyDecisionPart id d)) =
    Message.mk m.id m.role (m.parts.map (applyDecisionPart id d))
  rw [List.map_map]
  simp only [Function.comp_def]
  rw [List.map_congr_left (fun p _ => applyDecisionPart_idem id d p)]

theorem applyDecision_idem (id : String) (d : Decision) (h : List Message) :
    applyDecision id d (applyDecision id d h) = applyDecision id d h := by
  unfold applyDecision
  rw [List.map_map]
  simp only [Function.comp_def]
  rw [List.map_congr_left (fun m _ => applyDecisionMsg_idem id d m)]

theorem applyDecision_unknown (id : String) (d : Decision) (h : List Message)
    (hid : ∀ m ∈ h, ∀ p ∈ m.parts, partHasCallId id p = false) :
    applyDecision id d h = h := by
  unfold applyDecision
  have hstep : ∀ m ∈ h, applyDecisionMsg id d m = m := by
    intro m hm
    have hparts : m.parts.map (applyDecisionPart id d) = m.parts := by
      rw [List.map_congr_left
        (fun p hp => applyDecisionPart_unmatched id d p (hid m hm p hp))]
      exact List.map_id _
    show Message.mk m.id m.role (m.parts.map (applyDecisionPart id d)) = m
    rw [hparts]
  rw [List.map_congr_left hstep]
  exact List.map_id _

/-- Claim C1 as stated is false: with the conversation bound to
owner alice and repo proj, a tool call whose input names owner mallory
and repo other is executed against mallory/other, not against the bound
pair. -/
theorem C1_counterexample :
    ¬ (∀ r ∈ getRepositoryInfoRequests { owner := "mallory", repo := "other" },
        r.owner = (conversationRepo "alice::proj").owner ∧
        r.repo = (conversationRepo "alice::proj").repo) := by
  decide

/-- Claim C1 (amended): the owner and repo binding is enforced only
through the system prompt, whose final line instructs the model to pass
the bound owner and repo to every tool call; each tool executes with
exactly the owner and repo the model supplies in the tool-call input. -/
theorem C1_toolScopingAdvisory (b i : RepoInput) (j : GetRecentCommitsInput) :
    ((getRepositoryInfoRequests i).all
        (fun r => r.owner == i.owner && r.repo == i.repo)) = true ∧
    (getRecentCommitsRequest j).owner = j.owner ∧
    (getRecentCommitsRequest j).repo = j.repo ∧
    strOccurs (bindingInstruction b.owner b.repo) (systemPrompt b.owner b.repo) = true := by
  refine ⟨?_, rfl, rfl, ?_⟩
  · simp [getRepositoryInfoRequests]
  · show occursList (bindingInstruction b.owner b.repo).data
      ((systemPromptBody b.owner b.repo).data ++ (bindingInstruction b.owner b.repo).data) = true
    exact occursList_self_append _ _

/-- Claim C2: the conversation loop performs at most the configured
round budget of 10 model-generation rounds in one logical turn, and a
model that requests further tool calls on every round is stopped after
exactly the budget. -/
theorem C2_roundBudgetBound (f : Nat → ModelResponse) :
    (runTurn f roundBudget).length ≤ roundBudget ∧
    ((∀ n, (f n).requestsTools = true) → (runTurn f roundBudget).length = roundBudget) :=
  ⟨runTurn_length_le roundBudget f, fun hf => runTurn_length_all roundBudget f hf⟩

/-- Witness for claim C2 at a model that always requests further tool
calls: the loop runs exactly 10 rounds. -/
theorem C2_roundBudgetBound_witness :
    (runTurn (fun _ => { text := "t", requestsTools := true }) roundBudget).length ≤
      roundBudget ∧
    (runTurn (fun _ => { text := "t", requestsTools := true }) roundBudget).length =
      roundBudget :=
  ⟨(C2_roundBudgetBound _).1, (C2_roundBudgetBound _).2 (fun _ => rfl)⟩

/-- Claim C3 as stated is false: a message whose input-streaming
invocation is followed by a text part keeps that invocation after
sanitization, because only the trailing streaming invocations of the
last message are dropped. -/
theorem C3_counterexample : lastMessageHasStreaming [mC3] = true := by decide

/-- Claim C3 (amended): sanitization drops the trailing input-streaming
invocations of the most recent message only, dropping the message
entirely when no parts remain; when the last message is retained, its
part list ends with no input-streaming invocation (streaming invocations
elsewhere in it survive). -/
theorem C3_noDanglingTrailingCalls (h : List Message) (m : Message) :
    (dropTrailingStreaming m.parts ≠ [] →
      cleanupMessages (h ++ [m]) =
        h ++ [{ m with parts := dropTrailingStreaming m.parts }] ∧
      hasTrailingStreaming (dropTrailingStreaming m.parts) = false) ∧
    (dropTrailingStreaming m.parts = [] → cleanupMessages (h ++ [m]) = h) := by
  constructor
  · intro hne
    refine ⟨?_, hasTrailingStreaming_dropTrailing m.parts⟩
    rw [cleanup_append]
    rw [if_neg (by simpa [List.isEmpty_iff] using hne)]
  · intro he
    rw [cleanup_append]
    rw [if_pos (by simpa [List.isEmpty_iff] using he), List.append_nil]

/-- Witness for claim C3 (amended): a retained text message is kept with
no trailing streaming invocation, and a message of only streaming
invocations is dropped entirely. -/
theorem C3_noDanglingTrailingCalls_witness :
    (cleanupMessages ([mC7a] ++ [mPlain]) =
        [mC7a] ++ [{ mPlain with parts := dropTrailingStreaming mPlain.parts }] ∧
      hasTrailingStreaming (dropTrailingStreaming mPlain.parts) = false) ∧
    cleanupMessages ([mPlain] ++ [mC7a]) = [mPlain] :=
  ⟨(C3_noDanglingTrailingCalls [mC7a] mPlain).1 (by decide),
   (C3_noDanglingTrailingCalls [mPlain] mC7a).2 (by decide)⟩

/-- Claim C4: a thrown tool-executor error is recorded on the
invocation Part as state output-error whose payload carries the failure
reason, and tool errors never abort the turn; only a model-generation
error aborts the turn. -/
theorem C4_toolErrorNonFatal (t : ToolPart) (e : String) (m : Message)
    (exec : ToolPart → Except String String) (e2 : String)
    (ht : t.state = ToolState.inputAvailable) :
    (resolveToolPart (getRepositoryInfoExecute (.error e)) t).state =
      ToolState.outputError ("Failed to get repository info: " ++ e) ∧
    strOccurs e ("Failed to get repository info: " ++ e) = true ∧
    (turnStep (.ok m) exec).isAborted = false ∧
    (turnStep (.error e2) exec).isAborted = true := by
  refine ⟨?_, ?_, rfl, rfl⟩
  · obtain ⟨cid, name, st⟩ := t
    simp only at ht
    subst ht
    rfl
  · show occursList e.data ("Failed to get repository info: ".data ++ e.data) = true
    exact occursList_self_append _ _

/-- Witness for claim C4 at a concrete invocation and failure reason. -/
theorem C4_toolErrorNonFatal_witness :
    (resolveToolPart (getRepositoryInfoExecute (.error "boom"))
        { toolCallId := "c9", toolName := "getRepositoryInfo",
          state := .inputAvailable }).state =
      ToolState.outputError ("Failed to get repository info: " ++ "boom") ∧
    strOccurs "boom" ("Failed to get repository info: " ++ "boom") = true ∧
    (turnStep (.ok mPlain) (fun _ => .ok "out")).isAborted = false ∧
    (turnStep (.error "model down") (fun _ => .ok "out")).isAborted = true :=
  C4_toolErrorNonFatal _ "boom" mPlain _ "model down" rfl

/-- Claim C5: submitting the literal command clear discards the entire
history and sends nothing to the model, for every prior history. -/
theorem C5_clearCommand (h : List Message) :
    handleAgentSubmit h "clear" = { history := [], sent := none } := by
  unfold handleAgentSubmit
  rw [if_neg (by decide), if_pos (by decide)]

/-- Claim C6: applying an approval decision is idempotent, and a
decision for an unknown toolCallId leaves the history unchanged without
error. -/
theorem C6_approvalIdempotent (id : String) (d : Decision) (h : List Message) :
    applyDecision id d (applyDecision id d h) = applyDecision id d h ∧
    ((∀ m ∈ h, ∀ p ∈ m.parts, partHasCallId id p = false) →
      applyDecision id d h = h) :=
  ⟨applyDecision_idem id d h, fun hid => applyDecision_unknown id d h hid⟩

/-- Witness for claim C6: re-delivering a YES decision for call1 is a
no-op, and a decision for an unknown id leaves the history unchanged. -/
theorem C6_approvalIdempotent_witness :
    applyDecision "call1" .yes (applyDecision "call1" .yes hC6) =
      applyDecision "call1" .yes hC6 ∧
    applyDecision "nope" .yes hC6 = hC6 :=
  ⟨(C6_approvalIdempotent "call1" .yes hC6).1,
   (C6_approvalIdempotent "nope" .yes hC6).2 (by decide)⟩

/-- Claim C7 as stated is false: when the most recent message consists
only of streaming invocations it is dropped, exposing an earlier
message that still ends in a streaming invocation, so a second
sanitization strips further. -/
theorem C7_counterexample :
    cleanupMessages (cleanupMessages [mC7a, mC7b]) ≠ cleanupMessages [mC7a, mC7b] := by
  decide

/-- Claim C7 (amended): sanitization returns empty output on empty
input, leaves all messages before the most recent one unchanged, and is
idempotent whenever the most recent message is retained (its parts are
nonempty after stripping); when the last message is dropped entirely, a
second sanitization may strip the newly exposed last message further. -/
theorem C7_sanitizeIdempotentOnRetained (h : List Message) (m : Message) :
    cleanupMessages ([] : List Message) = [] ∧
    (cleanupMessages (h ++ [m])).take h.length = h ∧
    (dropTrailingStreaming m.parts ≠ [] →
      cleanupMessages (cleanupMessages (h ++ [m])) = cleanupMessages (h ++ [m])) := by
  refine ⟨rfl, ?_, ?_⟩
  · rw [cleanup_append]
    split
    · rw [List.append_nil, List.take_length]
    · exact List.take_left h _
  · intro hne
    rw [cleanup_append, if_neg (by simpa [List.isEmpty_iff] using hne)]
    rw [cleanup_append]
    have hkept : dropTrailingStreaming
        (({ m with parts := dropTrailingStreaming m.parts } : Message).parts) =
        dropTrailingStreaming m.parts :=
      dropTrailing_of_noTrailing _ (hasTrailingStreaming_dropTrailing m.parts)
    rw [hkept]
    rw [if_neg (by simpa [List.isEmpty_iff] using hne)]

/-- Witness for claim C7 (amended) at a retained text message. -/
theorem C7_sanitizeIdempotentOnRetained_witness :
    cleanupMessages ([] : List Message) = [] ∧
    (cleanupMessages ([mC7a] ++ [mPlain])).take [mC7a].length = [mC7a] ∧
    cleanupMessages (cleanupMessages ([mC7a] ++ [mPlain])) =
      cleanupMessages ([mC7a] ++ [mPlain]) :=
  ⟨(C7_sanitizeIdempotentOnRetained [mC7a] mPlain).1,
   (C7_sanitizeIdempotentOnRetained [mC7a] mPlain).2.1,
   (C7_sanitizeIdempotentOnRetained [mC7a] mPlain).2.2 (by decide)⟩

/-- Claim C8: the validation route answers valid true exactly when the
upstream lookup succeeds; every failure is answered with status 500,
valid false and the fixed error string, so a not-found failure is
indistinguishable from any other failure. -/
theorem C8_validateRepoOpaqueFailure (r : Except String Unit) (e1 e2 : String) :
    (validateRepoRoute r).valid = lookupSucceeded r ∧
    validateRepoRoute (.error e1) =
      { status := 500, valid := false,
        error := some "Failed to validate repository" } ∧
    validateRepoRoute (.error e1) = validateRepoRoute (.error e2) ∧
    (validateRepoRoute (.ok ())).status = 200 := by
  refine ⟨?_, rfl, rfl, rfl⟩
  cases r <;> rfl

/-- Claim C9: the listCommits request issued by getRecentCommits uses a
page size of min per_page 100 and therefore never exceeds 100. -/
theorem C9_perPageClamp (i : GetRecentCommitsInput) :
    (getRecentCommitsRequest i).per_page = min i.per_page 100 ∧
    (getRecentCommitsRequest i).per_page ≤ 100 :=
  ⟨rfl, min_le_right _ _⟩

/-- Claim C10: a whitespace-only input sends nothing and leaves the
history unchanged, and the clear command is recognized after trimming
whitespace, so a clear surrounded by whitespace clears the history
instead of being sent. -/
theorem C10_submitTrimming (h : List Message) (s t : String) :
    (jsTrim s = "" → handleAgentSubmit h s = { history := h, sent := none }) ∧
    (jsTrim t = "clear" → handleAgentSubmit h t = { history := [], sent := none }) := by
  constructor
  · intro hs
    unfold handleAgentSubmit
    rw [if_pos hs]
  · intro htr
    unfold handleAgentSubmit
    rw [if_neg (by rw [htr]; decide), if_pos htr]

/-- Witness for claim C10 at a whitespace-only input and at a clear
command surrounded by whitespace. -/
theorem C10_submitTrimming_witness :
    handleAgentSubmit [mPlain] "   " = { history := [mPlain], sent := none } ∧
    handleAgentSubmit [mPlain] "  clear " = { history := [], sent := none } :=
  ⟨(C10_submitTrimming [mPlain] "   " "  clear ").1 (by decide),
   (C10_submitTrimming [mPlain] "   " "  clear ").2 (by decide)⟩

end RepoChat
